import Mathlib

/-!
Shallow embedding of the slack-gemini-bot repository (publish stage
`pub/function.go`, subscribe stage `sub/function.go`) together with
proofs about the properties its specification states.

Strings are manipulated as `List Char`; Go library routines used by the
code (`regexp` matching of the fixed patterns, `strings.ReplaceAll`,
`strings.Contains`, `strings.TrimSpace`, `encoding/gob`) are modelled as
executable Lean functions faithful to their documented behaviour on the
concrete patterns the program uses.
-/

/-- Character class of the Go regexp `\w`: `[0-9A-Za-z_]`. -/
def isWordChar (c : Char) : Bool :=
  ('0' ≤ c && c ≤ '9') || ('a' ≤ c && c ≤ 'z') || ('A' ≤ c && c ≤ 'Z') || c = '_'

/-- After `<@` and at least one word character: consume further word
characters until a `>` closes the mention (`\w+>` continued). -/
def gtClose : List Char → Bool
  | '>' :: _ => true
  | c :: rest => isWordChar c && gtClose rest
  | [] => false

/-- Matches `\w+>`: at least one word character, then `gtClose`. -/
def wordThenGt : List Char → Bool
  | c :: rest => isWordChar c && gtClose rest
  | [] => false

/-- Does the Go regexp `<@\w+>` match starting exactly at this position? -/
def mentionFrom : List Char → Bool
  | '<' :: '@' :: rest => wordThenGt rest
  | _ => false

/-- `regexp.MustCompile(` `<@\w+>` `).MatchString`: does the pattern match
anywhere in the string? -/
def hasMention : List Char → Bool
  | [] => false
  | c :: rest => mentionFrom (c :: rest) || hasMention rest

/-- `containsMention s` models `reMention.MatchString s` in the source. -/
def containsMention (s : String) : Bool :=
  hasMention s.data

/-- `beginsWith hay needle`: `needle` is a pointwise prefix of `hay`. -/
def beginsWith : List Char → List Char → Bool
  | _, [] => true
  | [], _ :: _ => false
  | c :: cs, d :: ds => c = d && beginsWith cs ds

/-- `containsSeq hay needle` models Go `strings.Contains`. -/
def containsSeq : List Char → List Char → Bool
  | [], needle => beginsWith [] needle
  | c :: rest, needle => beginsWith (c :: rest) needle || containsSeq rest needle

/-- Go `strings.Contains` on `String`s. -/
def strContains (s sub : String) : Bool :=
  containsSeq s.data sub.data

/-- Go `strings.ReplaceAll hay needle repl` (leftmost, non-overlapping),
written with explicit fuel so the recursion is structural; the program
only ever calls it with a non-empty `needle`, and each step consumes at
least one character, so fuel `hay.length` is always enough. -/
def replaceSeqF (needle repl : List Char) : Nat → List Char → List Char
  | _, [] => []
  | 0, l => l
  | fuel + 1, c :: rest =>
    if beginsWith (c :: rest) needle && !needle.isEmpty then
      repl ++ replaceSeqF needle repl fuel (List.drop needle.length (c :: rest))
    else
      c :: replaceSeqF needle repl fuel rest

/-- Go `strings.ReplaceAll` on character lists. -/
def replaceSeq (needle repl l : List Char) : List Char :=
  replaceSeqF needle repl l.length l

/-- Go `strings.ReplaceAll` on `String`s. -/
def replaceAllStr (s needle repl : String) : String :=
  ⟨replaceSeq needle.data repl.data s.data⟩

/-- Whitespace recognized by Go `strings.TrimSpace` (`unicode.IsSpace`),
restricted to the ASCII range relevant here. -/
def goIsSpace (c : Char) : Bool :=
  c = ' ' || c = '\t' || c = '\n' || c = '\x0b' || c = '\x0c' || c = '\r'

/-- The character class of the Go regexp `\s`: `[\t\n\f\r ]` (RE2's Perl
class, which does not include the vertical tab). -/
def reIsSpace (c : Char) : Bool :=
  c = '\t' || c = '\n' || c = '\x0c' || c = '\r' || c = ' '

/-- Go `strings.TrimSpace`. -/
def trimSpace (s : String) : String :=
  ⟨((s.data.dropWhile goIsSpace).reverse.dropWhile goIsSpace).reverse⟩

/-! ### Slack events API model (inputs of the publish stage) -/

/-- A file attached to a Slack message; only the private download URL is
used by the program (`file.URLPrivateDownload`). -/
structure SlackFile where
  urlPrivateDownload : String
deriving Repr, DecidableEq

/-- The fields of `slackevents.MessageEvent` the program reads. -/
structure MessageEvent where
  type : String
  channel : String
  channelType : String
  user : String
  text : String
  timeStamp : String
  threadTimeStamp : String
  files : List SlackFile
deriving Repr, DecidableEq

/-- The fields of `slackevents.AppMentionEvent`; the publish stage never
reads any of them, it only logs the event in debug mode. -/
structure AppMentionEvent where
  user : String
  text : String
  channel : String
  timeStamp : String
  threadTimeStamp : String
deriving Repr, DecidableEq

/-- The dynamic type of `event.InnerEvent.Data` in the type switch of
`toApiInnerEvent`; `other` is the wildcard (default) case. -/
inductive InnerEventData where
  | appMention (e : AppMentionEvent)
  | message (e : MessageEvent)
  | other (innerType : String)
deriving Repr, DecidableEq

/-- The fields of `slackevents.EventsAPIEvent` the program reads. -/
structure EventsAPIEvent where
  type : String
  innerEvent : InnerEventData
deriving Repr, DecidableEq

/-- `pub.ApiInnerEvent`, the normalized event passed through the queue. -/
structure ApiInnerEvent where
  type : String
  channel : String
  channelType : String
  user : String
  text : String
  timeStamp : String
  threadTimeStamp : String
  fileUrls : List String
deriving Repr, DecidableEq

/-- `toApiInnerEvent` (pub/function.go): classify the inner event.
`slackevents.CallbackEvent = "event_callback"`,
`slack.TYPE_CHANNEL = "channel"`.  An `AppMentionEvent` is (after an
optional debug log) answered with `nil`; a `MessageEvent` in a public
channel outside a thread whose text has no `<@\w+>` mention is dropped;
other message events are copied field by field, the attachment URLs
collected from `innerEvent.Files`; every other inner type is dropped. -/
def toApiInnerEvent (event : EventsAPIEvent) : Option ApiInnerEvent :=
  if event.type ≠ "event_callback" then
    none
  else
    match event.innerEvent with
    | .appMention _ => none
    | .message m =>
      if m.channelType = "channel" && m.threadTimeStamp = "" && !containsMention m.text then
        none
      else
        some { type := m.type
               channel := m.channel
               channelType := m.channelType
               user := m.user
               text := m.text
               timeStamp := m.timeStamp
               threadTimeStamp := m.threadTimeStamp
               fileUrls := m.files.map (fun f => f.urlPrivateDownload) }
    | .other _ => none

/-! ### Queue serialization (`encoding/gob`)

`publishTopic` encodes the `ApiInnerEvent` with `gob.NewEncoder(buf).Encode`
and `Subscribe` decodes it with `gob.NewDecoder(buf).Decode` into a
zero-valued struct.  Modelled from the spec: `encoding/gob` is an external
standard-library collaborator; its documented struct semantics are
"fields at their zero value are omitted from the transmission" and a
decode updates only the transmitted fields of the (zero-initialized)
destination.  The model keeps that zero-field suppression and abstracts
the wire bytes into a list of (field, value) items. -/

/-- Field identifiers of the gob encoding of `ApiInnerEvent`, in struct
declaration order. -/
inductive GobField where
  | type | channel | channelType | user | text | timeStamp | threadTimeStamp | fileUrls
deriving Repr, DecidableEq

/-- A transmitted gob value: the struct only has `string` and `[]string`
fields. -/
inductive GobValue where
  | str (s : String)
  | strs (l : List String)
deriving Repr, DecidableEq

/-- Is a gob value the zero value of its type (omitted from the wire)?
Go considers a nil/empty slice zero just like the empty string. -/
def gobIsZero : GobValue → Bool
  | .str s => s = ""
  | .strs l => l.isEmpty

/-- One struct field on the wire: omitted when zero. -/
def encodeField (f : GobField) (v : GobValue) : List (GobField × GobValue) :=
  if gobIsZero v then [] else [(f, v)]

/-- gob encoding of an `ApiInnerEvent`: the non-zero fields in struct
order. -/
def gobEncode (e : ApiInnerEvent) : List (GobField × GobValue) :=
  encodeField .type (.str e.type) ++
  encodeField .channel (.str e.channel) ++
  encodeField .channelType (.str e.channelType) ++
  encodeField .user (.str e.user) ++
  encodeField .text (.str e.text) ++
  encodeField .timeStamp (.str e.timeStamp) ++
  encodeField .threadTimeStamp (.str e.threadTimeStamp) ++
  encodeField .fileUrls (.strs e.fileUrls)

/-- The zero value of `ApiInnerEvent`, the state of the decode target
`var event pub.ApiInnerEvent` before decoding. -/
def zeroEvent : ApiInnerEvent :=
  { type := "", channel := "", channelType := "", user := "", text := ""
    timeStamp := "", threadTimeStamp := "", fileUrls := [] }

/-- Apply one transmitted field to the decode target. -/
def setField (e : ApiInnerEvent) (p : GobField × GobValue) : ApiInnerEvent :=
  match p with
  | (.type, .str s) => { e with type := s }
  | (.channel, .str s) => { e with channel := s }
  | (.channelType, .str s) => { e with channelType := s }
  | (.user, .str s) => { e with user := s }
  | (.text, .str s) => { e with text := s }
  | (.timeStamp, .str s) => { e with timeStamp := s }
  | (.threadTimeStamp, .str s) => { e with threadTimeStamp := s }
  | (.fileUrls, .strs l) => { e with fileUrls := l }
  | _ => e

/-- gob decoding into the zero-valued destination struct. -/
def gobDecode (msg : List (GobField × GobValue)) : ApiInnerEvent :=
  msg.foldl setField zeroEvent

/-! ### Generative-model response and markdown post-processing -/

/-- A part of a model request or response as the program uses it:
`genai.Text` or `genai.Blob`
(MIME type plus raw bytes). -/
inductive GenPart where
  | text (s : String)
  | blob (mimeType : String) (data : List Nat)
deriving Repr, DecidableEq

/-- One `genai.Candidate`; the program only reads `Content.Parts`. -/
structure Candidate where
  parts : List GenPart
deriving Repr, DecidableEq

/-- A `genai.GenerateContentResponse`: a list of candidates, each possibly
nil (the loop in `joinResponse` skips nil candidates). -/
structure GenResponse where
  candidates : List (Option Candidate)
deriving Repr, DecidableEq

/-- Go `fmt.Sprintf("%v", part)`: a `genai.Text` prints as its string, a
`genai.Blob` struct prints as `\x7bMIMEType [b0 b1 ...]\x7d`. -/
def fmtPart : GenPart → String
  | .text s => s
  | .blob mime data =>
    "\x7b" ++ mime ++ " [" ++ String.intercalate " " (data.map toString) ++ "]\x7d"

/-- Scanner for the Go regexp replacement
`reList := regexp.MustCompile(` `(\n+\s*)\* ` `)` applied as
`reList.ReplaceAllString(s, "${1}- ")`: a whitespace run starting with a
newline and followed by the literal `* ` keeps the run (group 1) and
turns `* ` into `- `; scanning resumes after the match.  The mode flag is
`true` while inside a whitespace run opened by a newline (`\n+\s*`
matches exactly the whitespace runs whose first character is a newline,
and an unmatched run is re-scanned character by character with the same
outcome, so a single forward scan implements the leftmost semantics). -/
def rlmAux : List Char → Bool → List Char
  | [], _ => []
  | c :: rest, false => if c = '\n' then '\n' :: rlmAux rest true else c :: rlmAux rest false
  | '*' :: ' ' :: r2, true => '-' :: ' ' :: rlmAux r2 false
  | c :: rest, true => if reIsSpace c then c :: rlmAux rest true else c :: rlmAux rest false

/-- The list-marker rewrite of `joinResponse`. -/
def replaceListMarkers (l : List Char) : List Char :=
  rlmAux l false

/-- Go `strings.ReplaceAll(s, "**", "*")` specialized: leftmost,
non-overlapping collapse of each double asterisk into a single one. -/
def collapseBold : List Char → List Char
  | '*' :: '*' :: rest => '*' :: collapseBold rest
  | c :: rest => c :: collapseBold rest
  | [] => []

/-- The `replaceMarkdown` closure of `joinResponse`: the list-marker
rewrite followed by the bold-marker collapse. -/
def replaceMarkdown (s : String) : String :=
  ⟨collapseBold (replaceListMarkers s.data)⟩

/-- `joinResponse` (sub/function.go): for every (non-nil) candidate of the
response, post-process each part's `%v` rendering, and join everything
with newlines. -/
def joinResponse (res : GenResponse) : String :=
  String.intercalate "\n"
    ((res.candidates.filterMap id).flatMap
      (fun cand => cand.parts.map (fun part => replaceMarkdown (fmtPart part))))

/-! ### Concurrent attachment fetch -/

/-- Outcome of `http.DefaultClient.Do(req)` for one URL, supplied by the
environment: a transport error (`err != nil`, `res == nil`), or a
response with a status code and a body (`none` when `io.ReadAll` errors). -/
inductive FetchOutcome where
  | transportError
  | httpResponse (statusCode : Nat) (body : Option (List Nat))
deriving Repr, DecidableEq

/-- Modelled from the spec: `http.DetectContentType` inspects the bytes
to pick a MIME type; its exact value is irrelevant to every claim, only
that it is a function of the data. -/
def detectContentType (_data : List Nat) : String :=
  "application/octet-stream"

/-- `fetchFile` (sub/function.go): the body of one fetch goroutine.
Result: `none` = the goroutine panics (crashing the process), `some none`
= it contributes nothing to the channel (empty URL, non-200 status, read
error), `some (some data)` = it sends `data` on the channel.  The panic
arises because on a transport error (`err != nil`) the Go code still
evaluates `res.Status` on the nil response in its log statement. -/
def fetchFileModel (fetch : String → FetchOutcome) (url : String) :
    Option (Option (List Nat)) :=
  if url = "" then
    some none
  else
    match fetch url with
    | .transportError => none
    | .httpResponse statusCode body =>
      if statusCode ≠ 200 then
        some none
      else
        match body with
        | none => some none
        | some data => some (some data)

/-- `fetchFiles` (sub/function.go): fan out one `fetchFile` per URL, wait
for all of them, and collect each sent byte slice into a `genai.Blob`
with a detected content type.  The embedding is sequential in URL order
(the real collection order over the channel is arbitrary); a panic of any
goroutine crashes the whole invocation (`none`). -/
def fetchFilesModel (fetch : String → FetchOutcome) : List String → Option (List GenPart)
  | [] => some []
  | url :: rest => do
    let r ← fetchFileModel fetch url
    let others ← fetchFilesModel fetch rest
    match r with
    | none => pure others
    | some data => pure (GenPart.blob (detectContentType data) data :: others)

/-! ### Responder (`sub/function.go`) -/

/-- One turn of a Slack thread as returned by
`GetConversationRepliesContext`; the program reads `User`, `Text` and
`Files`. -/
structure SlackMessage where
  user : String
  text : String
  files : List SlackFile
deriving Repr, DecidableEq

/-- A `genai.Content` turn of the chat history. -/
structure Content where
  role : String
  parts : List GenPart
deriving Repr, DecidableEq

/-- Externally visible behaviour of one responder invocation. -/
inductive Effect where
  | modelCall
  | post (channel : String) (text : String) (threadTs : Option String)
deriving Repr, DecidableEq

/-- Environment (oracle) of one responder invocation: the bot identity
from `AuthTest`, the thread-replies result (`none` = API error), the
per-URL fetch outcomes, and the generative-model result (`none` = API
error) for the single model call an invocation can make. -/
structure SubEnv where
  botUser : String
  replies : Option (List SlackMessage)
  fetch : String → FetchOutcome
  genResult : Option GenResponse

/-- `createChatHistory` (sub/function.go): for every fetched message but
the last, one `genai.Content` whose role is `model` for the bot's own
turns and `user` otherwise, with the message text and (when the message
has files) the fetched blobs as parts.  `none` = a fetch goroutine
panicked. -/
def createChatHistory (env : SubEnv) (msgs : List SlackMessage) : Option (List Content) :=
  (msgs.take (msgs.length - 1)).mapM (fun msg => do
    let role := if msg.user = env.botUser then "model" else "user"
    if msg.files.isEmpty then
      pure (Content.mk role [GenPart.text msg.text])
    else do
      let blobs ← fetchFilesModel env.fetch (msg.files.map (fun f => f.urlPrivateDownload))
      pure (Content.mk role (GenPart.text msg.text :: blobs)))

/-- `generateAnswer` (sub/function.go): empty prompt answers nothing;
otherwise fetch the attachments, call `GenerateContent` (one model call;
an API error is logged and yields the empty answer) and join the
response.  `none` = a fetch goroutine panicked. -/
def generateAnswer (env : SubEnv) (prompt : String) (fileUrls : List String) :
    Option (List Effect × String) :=
  if prompt = "" then
    some ([], "")
  else
    match fetchFilesModel env.fetch fileUrls with
    | none => none
    | some _blobs =>
      match env.genResult with
      | none => some ([.modelCall], "")
      | some res => some ([.modelCall], joinResponse res)

/-- `generateChatAnswer` (sub/function.go): empty prompt answers nothing;
a replies-API error is logged and yields the empty answer; then the Go
code indexes `msgs[len(msgs)-2]`, which panics (`none`) when fewer than
two messages came back; if that turn is not the bot's, the answer is
empty without any model call; otherwise build the chat history, fetch
the attachments and send the chat message (one model call). -/
def generateChatAnswer (env : SubEnv) (prompt : String) (fileUrls : List String) :
    Option (List Effect × String) :=
  if prompt = "" then
    some ([], "")
  else
    match env.replies with
    | none => some ([], "")
    | some msgs =>
      if msgs.length < 2 then
        none
      else
        match msgs.get? (msgs.length - 2) with
        | none => none
        | some m =>
          if m.user ≠ env.botUser then
            some ([], "")
          else
            match createChatHistory env msgs with
            | none => none
            | some _history =>
              match fetchFilesModel env.fetch fileUrls with
              | none => none
              | some _blobs =>
                match env.genResult with
                | none => some ([.modelCall], "")
                | some res => some ([.modelCall], joinResponse res)

/-- `processEvent` (sub/function.go): dispatch on the queued event's type
(`slackevents.AppMention = "app_mention"`, `slackevents.Message =
"message"`).  The bot mention token `<@botUser>` is stripped from the
text to form the prompt; a plain channel message outside a thread
without the bot mention is a no-op; otherwise the answer (when
non-empty) is posted, threaded to the trigger or thread-root timestamp
as in the source.  `none` = the invocation panicked. -/
def processEvent (env : SubEnv) (e : ApiInnerEvent) : Option (List Effect) :=
  let mention := "<@" ++ env.botUser ++ ">"
  if e.type = "app_mention" then
    let prompt := trimSpace (replaceAllStr e.text mention "")
    match generateAnswer env prompt e.fileUrls with
    | none => none
    | some (effs, answer) =>
      if answer = "" then
        some effs
      else
        some (effs ++ [.post e.channel answer (some e.timeStamp)])
  else if e.type = "message" then
    let prompt := trimSpace (replaceAllStr e.text mention "")
    if e.threadTimeStamp = "" then
      let isMentionToBot := strContains e.text mention
      if e.channelType = "channel" && !isMentionToBot then
        some []
      else
        match generateAnswer env prompt e.fileUrls with
        | none => none
        | some (effs, answer) =>
          if answer = "" then
            some effs
          else
            some (effs ++ [.post e.channel answer
              (if isMentionToBot then some e.timeStamp else none)])
    else
      match generateChatAnswer env prompt e.fileUrls with
      | none => none
      | some (effs, answer) =>
        if answer = "" then
          some effs
        else
          some (effs ++ [.post e.channel answer (some e.threadTimeStamp)])
  else
    some []

/-! ### Claim theorems -/

/-- C1: decoding the queue message produced by encoding any
`ApiInnerEvent` (any field values, any attachment-URL list) yields an
event equal to the original in every field. -/
theorem gob_roundtrip_event (e : ApiInnerEvent) : gobDecode (gobEncode e) = e := by
  obtain ⟨t, c, ct, u, x, ts, tts, urls⟩ := e
  simp only [gobEncode, gobDecode, encodeField, gobIsZero]
  by_cases h0 : t = "" <;> by_cases h1 : c = "" <;> by_cases h2 : ct = "" <;>
    by_cases h3 : u = "" <;> by_cases h4 : x = "" <;> by_cases h5 : ts = "" <;>
    by_cases h6 : tts = "" <;> by_cases h7 : urls = [] <;>
    simp [h0, h1, h2, h3, h4, h5, h6, h7, setField, zeroEvent, List.isEmpty_iff]

/-- Does a string (as a char list) contain three consecutive asterisks?
Side condition for the idempotence of the bold-marker collapse. -/
def hasTripleStar : List Char → Bool
  | c1 :: c2 :: c3 :: rest => (c1 = '*' && c2 = '*' && c3 = '*') || hasTripleStar (c2 :: c3 :: rest)
  | _ => false

lemma collapseBold_cons_of_ne (c : Char) (l : List Char) (h : c ≠ '*') :
    collapseBold (c :: l) = c :: collapseBold l := by
  cases l with
  | nil => simp [collapseBold]
  | cons d r =>
    rw [collapseBold]
    exact fun _ hc _ => h hc

lemma collapseBold_star_cons (m : List Char) (h : m.head? ≠ some '*') :
    collapseBold ('*' :: m) = '*' :: collapseBold m := by
  cases m with
  | nil => simp [collapseBold]
  | cons d r =>
    rw [collapseBold]
    intro r1 _ heq
    injection heq with h1 _
    exact h (by simp [h1])

lemma head?_collapseBold (l : List Char) : (collapseBold l).head? = l.head? := by
  induction l using collapseBold.induct with
  | case1 rest ih => simp [collapseBold]
  | case2 c rest h ih =>
    rcases Decidable.em (c = '*') with hc | hc
    · subst hc
      have hm : rest.head? ≠ some '*' := by
        cases rest with
        | nil => simp
        | cons d r =>
          intro hh
          exact h r rfl (by simpa using hh)
      rw [collapseBold_star_cons rest hm]
      simp
    · rw [collapseBold_cons_of_ne c rest hc]
      simp
  | case3 => simp [collapseBold]

lemma hasTripleStar_tail (c : Char) (l : List Char) (h : hasTripleStar (c :: l) = false) :
    hasTripleStar l = false := by
  cases l with
  | nil => simp [hasTripleStar]
  | cons d r =>
    cases r with
    | nil => simp [hasTripleStar]
    | cons e r2 =>
      rw [hasTripleStar] at h
      simpa using (Bool.or_eq_false_iff.mp h).2

/-- C9 (counterexample): the bold-marker collapse is not idempotent as
claimed: on three consecutive asterisks one application gives `**` and a
second application gives `*`. -/
theorem collapseBold_not_idem_on_triple_star :
    collapseBold (collapseBold "***".data) ≠ collapseBold "***".data := by
  decide

/-- C9 (amended): the bold-marker collapse (`strings.ReplaceAll(s, "**",
"*")` in `joinResponse`) is idempotent on every input that has no run of
three or more consecutive asterisks; on longer runs a second application
keeps collapsing, so idempotence fails in general. -/
theorem collapseBold_idem_of_noTriple (l : List Char) (h : hasTripleStar l = false) :
    collapseBold (collapseBold l) = collapseBold l := by
  induction l using collapseBold.induct with
  | case1 rest ih =>
    have h1 : hasTripleStar ('*' :: rest) = false := hasTripleStar_tail _ _ h
    have h2 : hasTripleStar rest = false := hasTripleStar_tail _ _ h1
    have hrest : rest.head? ≠ some '*' := by
      cases rest with
      | nil => simp
      | cons d r =>
        intro hh
        simp at hh
        subst hh
        rw [hasTripleStar] at h
        simp at h
    rw [collapseBold]
    have hm : (collapseBold rest).head? ≠ some '*' := by
      rw [head?_collapseBold]
      exact hrest
    rw [collapseBold_star_cons _ hm, ih h2]
  | case2 c rest hside ih =>
    have h2 : hasTripleStar rest = false := hasTripleStar_tail _ _ h
    rcases Decidable.em (c = '*') with hc | hc
    · subst hc
      have hrest : rest.head? ≠ some '*' := by
        cases rest with
        | nil => simp
        | cons d r =>
          intro hh
          exact hside r rfl (by simpa using hh)
      rw [collapseBold_star_cons rest hrest]
      have hm : (collapseBold rest).head? ≠ some '*' := by
        rw [head?_collapseBold]; exact hrest
      rw [collapseBold_star_cons _ hm, ih h2]
    · rw [collapseBold_cons_of_ne c rest hc, collapseBold_cons_of_ne c _ hc, ih h2]
  | case3 => simp [collapseBold]

/-- C9 (witness): the amended idempotence at the concrete input `a**b*`. -/
theorem collapseBold_idem_witness :
    hasTripleStar "a**b*".data = false ∧
      collapseBold (collapseBold "a**b*".data) = collapseBold "a**b*".data :=
  ⟨by decide, collapseBold_idem_of_noTriple "a**b*".data (by decide)⟩

lemma rlmAux_ws_append (w rest : List Char) (hw : ∀ c ∈ w, reIsSpace c = true) :
    rlmAux (w ++ '*' :: ' ' :: rest) true = w ++ '-' :: ' ' :: rlmAux rest false := by
  induction w with
  | nil => rfl
  | cons c cs ih =>
    simp only [List.cons_append]
    rw [rlmAux]
    case x_2 =>
      intro r2 hc
      exfalso
      have h1 := hw c (by simp)
      rw [hc] at h1
      simp [reIsSpace] at h1
    rw [hw c (by simp)]
    simp only [if_true]
    rw [ih (fun d hd => hw d (by simp [hd]))]

/-- C8: the markdown post-processing rewrites a list marker `* ` that
follows a newline and optional further whitespace into a `- ` item
keeping the whitespace run (the rewrite of the Go regexp
`(\n+\s*)\* ` with `${1}- `), and in particular `\n* item` becomes
`\n- item` and the bold collapse turns `**bold**` into `*bold*`. -/
theorem markdown_post_processing
    (w rest : List Char) (hw : ∀ c ∈ w, reIsSpace c = true) :
    replaceListMarkers ('\n' :: (w ++ '*' :: ' ' :: rest)) =
        '\n' :: (w ++ '-' :: ' ' :: replaceListMarkers rest) ∧
      replaceMarkdown "\n* item" = "\n- item" ∧
      replaceMarkdown "**bold**" = "*bold*" := by
  refine ⟨?_, by decide, by decide⟩
  unfold replaceListMarkers
  rw [rlmAux]
  rw [if_pos rfl]
  rw [rlmAux_ws_append w rest hw]

/-- C8 (witness): the list-marker rewrite at the concrete whitespace run
of one space and tail `item`. -/
theorem markdown_post_processing_witness :
    (∀ c ∈ [' '], reIsSpace c = true) ∧
      replaceListMarkers ('\n' :: ([' '] ++ '*' :: ' ' :: "item".data)) =
        '\n' :: ([' '] ++ '-' :: ' ' :: replaceListMarkers "item".data) :=
  ⟨by decide, (markdown_post_processing [' '] "item".data (by decide)).1⟩

/-- C5 (counterexample): a concrete supported app-mention inner event for
which the ingress filter produces no normalized event (so nothing is
enqueued), contradicting the claim that app-mention events are
normalized and enqueued. -/
theorem appMention_not_forwarded :
    toApiInnerEvent ⟨"event_callback",
      .appMention ⟨"U2", "<@U1> hello", "C1", "1700000000.1", ""⟩⟩ = none := by
  rfl

/-- C5 (amended): the ingress filter drops app-mention inner events just
like unsupported kinds (they are only logged); a normalized event is
built and enqueued only for message events that pass the filter. -/
theorem appMention_dropped_like_unsupported :
    (∀ (ty : String) (a : AppMentionEvent), toApiInnerEvent ⟨ty, .appMention a⟩ = none) ∧
      (∀ (ty t : String), toApiInnerEvent ⟨ty, .other t⟩ = none) := by
  constructor <;> intro ty x <;> unfold toApiInnerEvent <;> split <;> rfl

/-- What the spec says `joinResponse` does ("only the first candidate's
parts are consumed"): the newline-join of the post-processed parts of
the first candidate alone. -/
def specFirstCandidateText (res : GenResponse) : String :=
  match res.candidates.head? with
  | some (some cand) =>
    String.intercalate "\n" (cand.parts.map (fun part => replaceMarkdown (fmtPart part)))
  | _ => ""

/-- C6 (counterexample): on a response with two candidates the delivered
text contains both candidates' parts, not the first candidate's parts
alone. -/
theorem joinResponse_uses_second_candidate :
    joinResponse ⟨[some ⟨[.text "a"]⟩, some ⟨[.text "b"]⟩]⟩ = "a\nb" ∧
      specFirstCandidateText ⟨[some ⟨[.text "a"]⟩, some ⟨[.text "b"]⟩]⟩ = "a" ∧
      ("a\nb" : String) ≠ "a" := by
  refine ⟨by decide, by decide, by decide⟩

/-- C6 (amended): the responder consumes every candidate of the model
response: the delivered text is the newline-join of the post-processed
parts of all non-nil candidates in order, so with two or more candidates
the later candidates' parts are appended after the first candidate's. -/
theorem joinResponse_joins_all_candidates
    (c : Candidate) (rest : List (Option Candidate)) :
    joinResponse ⟨some c :: rest⟩ =
      String.intercalate "\n"
        (c.parts.map (fun part => replaceMarkdown (fmtPart part)) ++
          (rest.filterMap id).flatMap
            (fun cand => cand.parts.map (fun part => replaceMarkdown (fmtPart part)))) := by
  simp [joinResponse]

/-- C10: the thread-continuation path indexes `msgs[len(msgs)-2]` with no
length check, so whenever the replies API returns fewer than two
messages (and the prompt is non-empty, the only way to reach the index)
the lookup is out of bounds: in this total embedding the invocation
crashes (`none`), and the error branch is reachable. -/
theorem generateChatAnswer_short_thread_crash
    (env : SubEnv) (prompt : String) (urls : List String) (msgs : List SlackMessage)
    (h1 : prompt ≠ "") (h2 : env.replies = some msgs) (h3 : msgs.length < 2) :
    generateChatAnswer env prompt urls = none := by
  unfold generateChatAnswer
  rw [if_neg h1, h2]
  simp only [if_pos h3]

/-- C10 (witness): the crash at a concrete one-message thread. -/
theorem generateChatAnswer_short_thread_crash_witness :
    ("hi" : String) ≠ "" ∧
      (SubEnv.mk "U1" (some [⟨"U2", "q", []⟩]) (fun _ => .transportError) none).replies =
        some [⟨"U2", "q", []⟩] ∧
      ([(⟨"U2", "q", []⟩ : SlackMessage)].length < 2) ∧
      generateChatAnswer
        (SubEnv.mk "U1" (some [⟨"U2", "q", []⟩]) (fun _ => .transportError) none) "hi" [] =
        none :=
  ⟨by decide, rfl, by decide,
    generateChatAnswer_short_thread_crash _ _ _ [⟨"U2", "q", []⟩] (by decide) rfl (by decide)⟩

/-- A well-formed Slack user id: non-empty and all `\w` characters (the
ids returned by `AuthTest` are of this shape; the mention token the
responder builds from it is `<@` ++ id ++ `>`). -/
def isWordString (s : String) : Bool :=
  !s.data.isEmpty && s.data.all isWordChar

lemma gtClose_of_beginsWith (l w : List Char) (hw : ∀ c ∈ w, isWordChar c = true)
    (hb : beginsWith l (w ++ ['>']) = true) : gtClose l = true := by
  induction w generalizing l with
  | nil =>
    cases l with
    | nil => simp [beginsWith] at hb
    | cons c cs =>
      simp only [List.nil_append, beginsWith, Bool.and_eq_true] at hb
      obtain ⟨hc, _⟩ := hb
      simp only [decide_eq_true_eq] at hc
      subst hc
      rfl
  | cons d ds ih =>
    cases l with
    | nil => simp [beginsWith] at hb
    | cons c cs =>
      simp only [List.cons_append, beginsWith, Bool.and_eq_true] at hb
      obtain ⟨hc, hb2⟩ := hb
      simp only [decide_eq_true_eq] at hc
      subst hc
      rcases Decidable.em (c = '>') with hd | hd
      · subst hd
        rfl
      · rw [gtClose]
        case x_1 => exact fun hcc => absurd hcc hd
        rw [hw c (by simp), ih cs (fun x hx => hw x (by simp [hx])) hb2]
        rfl

lemma mentionFrom_of_beginsWith (l : List Char) (u : String)
    (hu : isWordString u = true)
    (hb : beginsWith l ('<' :: '@' :: (u.data ++ ['>'])) = true) :
    mentionFrom l = true := by
  obtain ⟨c1, l1, rfl⟩ : ∃ c1 l1, l = c1 :: l1 := by
    cases l with
    | nil => simp [beginsWith] at hb
    | cons a b => exact ⟨a, b, rfl⟩
  obtain ⟨c2, l2, rfl⟩ : ∃ c2 l2, l1 = c2 :: l2 := by
    cases l1 with
    | nil => simp [beginsWith] at hb
    | cons a b => exact ⟨a, b, rfl⟩
  simp only [beginsWith, Bool.and_eq_true, decide_eq_true_eq] at hb
  obtain ⟨h1, h2, h3⟩ := hb
  subst h1
  subst h2
  simp only [isWordString, Bool.and_eq_true, List.all_eq_true] at hu
  obtain ⟨hne, hall⟩ := hu
  rw [mentionFrom]
  obtain ⟨d, ds, hds⟩ : ∃ d ds, u.data = d :: ds := by
    cases hud : u.data with
    | nil => rw [hud] at hne; simp at hne
    | cons a b => exact ⟨a, b, rfl⟩
  rw [hds] at h3
  obtain ⟨c3, l3, rfl⟩ : ∃ c3 l3, l2 = c3 :: l3 := by
    cases l2 with
    | nil => simp [beginsWith] at h3
    | cons a b => exact ⟨a, b, rfl⟩
  simp only [List.cons_append, beginsWith, Bool.and_eq_true, decide_eq_true_eq] at h3
  obtain ⟨h4, h5⟩ := h3
  subst h4
  rw [wordThenGt]
  have hd : isWordChar c3 = true := hall c3 (by rw [hds]; simp)
  rw [hd]
  rw [gtClose_of_beginsWith l3 ds (fun x hx => hall x (by rw [hds]; simp [hx])) h5]
  rfl

lemma hasMention_of_containsSeq (l : List Char) (u : String)
    (hu : isWordString u = true)
    (hc : containsSeq l ('<' :: '@' :: (u.data ++ ['>'])) = true) :
    hasMention l = true := by
  induction l with
  | nil => simp [containsSeq, beginsWith] at hc
  | cons c rest ih =>
    rw [containsSeq] at hc
    rcases Bool.or_eq_true_iff.mp hc with hb | hrest
    · rw [hasMention]
      rw [mentionFrom_of_beginsWith _ u hu hb]
      rfl
    · rw [hasMention, ih hrest]
      simp

/-- A text without any `<@\w+>` mention cannot contain the bot's own
mention token `<@botUser>` when the bot id is a non-empty word string. -/
lemma not_strContains_mention (text : String) (u : String)
    (hu : isWordString u = true)
    (hnm : containsMention text = false) :
    strContains text ("<@" ++ u ++ ">") = false := by
  by_contra hcon
  rw [Bool.not_eq_false] at hcon
  unfold strContains at hcon
  have hdata : ("<@" ++ u ++ ">").data = '<' :: '@' :: (u.data ++ ['>']) := by
    simp [String.data_append]
  rw [hdata] at hcon
  exact absurd (hasMention_of_containsSeq _ u hu hcon) (by rw [containsMention] at hnm; simp [hnm])

/-- C2: a public-channel plain-message event outside a thread whose text
has no explicit mention is dropped by the ingress filter (no normalized
event, hence nothing to enqueue: `Publish` returns before
`publishTopic` when `toApiInnerEvent` is nil), and, symmetrically, the
responder is a no-op (no effects at all) on every such event that would
reach it — given the bot id from `AuthTest` is a non-empty word string,
so the bot's mention token cannot occur in a mention-free text. -/
theorem public_chatter_dropped_both_stages
    (m : MessageEvent) (env : SubEnv)
    (hct : m.channelType = "channel") (htts : m.threadTimeStamp = "")
    (hnm : containsMention m.text = false)
    (hwf : isWordString env.botUser = true) :
    toApiInnerEvent ⟨"event_callback", .message m⟩ = none ∧
      ∀ e : ApiInnerEvent, e.type = "message" → e.threadTimeStamp = "" →
        e.channelType = "channel" → containsMention e.text = false →
        processEvent env e = some [] := by
  constructor
  · unfold toApiInnerEvent
    simp [hct, htts, hnm]
  · intro e hty hets hect hem
    unfold processEvent
    rw [hty]
    simp only [reduceIte, String.reduceEq]
    rw [if_pos hets]
    have hmc : strContains e.text ("<@" ++ env.botUser ++ ">") = false :=
      not_strContains_mention e.text env.botUser hwf hem
    rw [hect, hmc]
    simp

/-- C2 (witness): both stages at the concrete mention-free public-channel
message `hello`. -/
theorem public_chatter_dropped_witness :
    containsMention "hello" = false ∧ isWordString "U1" = true ∧
      toApiInnerEvent
        ⟨"event_callback", .message ⟨"message", "C1", "channel", "U2", "hello", "1.1", "", []⟩⟩ =
        none ∧
      processEvent (SubEnv.mk "U1" none (fun _ => .transportError) none)
        ⟨"message", "C1", "channel", "U2", "hello", "1.1", "", []⟩ = some [] :=
  ⟨by decide, by decide,
    (public_chatter_dropped_both_stages
      ⟨"message", "C1", "channel", "U2", "hello", "1.1", "", []⟩
      (SubEnv.mk "U1" none (fun _ => .transportError) none)
      rfl rfl (by decide) (by decide)).1,
    (public_chatter_dropped_both_stages
      ⟨"message", "C1", "channel", "U2", "hello", "1.1", "", []⟩
      (SubEnv.mk "U1" none (fun _ => .transportError) none)
      rfl rfl (by decide) (by decide)).2
      ⟨"message", "C1", "channel", "U2", "hello", "1.1", "", []⟩ rfl rfl rfl (by decide)⟩

lemma generateChatAnswer_not_bot (env : SubEnv) (prompt : String) (urls : List String)
    (msgs : List SlackMessage) (m : SlackMessage)
    (hrep : env.replies = some msgs) (hlen : 2 ≤ msgs.length)
    (hget : msgs.get? (msgs.length - 2) = some m) (huser : m.user ≠ env.botUser) :
    generateChatAnswer env prompt urls = some ([], "") := by
  unfold generateChatAnswer
  by_cases hp : prompt = ""
  · rw [if_pos hp]
  · rw [if_neg hp, hrep]
    have hnl : ¬(msgs.length < 2) := by omega
    dsimp only
    rw [if_neg hnl, hget]
    dsimp only
    rw [if_pos huser]

/-- C3: on a thread-continuation event (non-empty thread-root timestamp)
whose fetched history's second-to-last message is not authored by the
bot, the responder produces no effects: no model call and no post. -/
theorem thread_not_started_by_bot_noop
    (env : SubEnv) (e : ApiInnerEvent) (msgs : List SlackMessage) (m : SlackMessage)
    (hty : e.type = "message") (htts : e.threadTimeStamp ≠ "")
    (hrep : env.replies = some msgs) (hlen : 2 ≤ msgs.length)
    (hget : msgs.get? (msgs.length - 2) = some m) (huser : m.user ≠ env.botUser) :
    processEvent env e = some [] := by
  unfold processEvent
  rw [hty]
  simp only [reduceIte, String.reduceEq]
  rw [if_neg htts]
  rw [generateChatAnswer_not_bot env _ _ msgs m hrep hlen hget huser]
  rfl

/-- C3 (witness): the no-op at a concrete two-message thread whose
second-to-last turn is by `U2`, not the bot `U1`. -/
theorem thread_not_started_by_bot_noop_witness :
    (("1.0" : String) ≠ "") ∧
      ([(⟨"U2", "q", []⟩ : SlackMessage), ⟨"U3", "a", []⟩].get? 0 = some ⟨"U2", "q", []⟩) ∧
      (("U2" : String) ≠ "U1") ∧
      processEvent
        (SubEnv.mk "U1" (some [⟨"U2", "q", []⟩, ⟨"U3", "a", []⟩]) (fun _ => .transportError) none)
        ⟨"message", "C1", "channel", "U2", "q2", "1.2", "1.0", []⟩ = some [] :=
  ⟨by decide, by decide, by decide,
    thread_not_started_by_bot_noop
      (SubEnv.mk "U1" (some [⟨"U2", "q", []⟩, ⟨"U3", "a", []⟩]) (fun _ => .transportError) none)
      ⟨"message", "C1", "channel", "U2", "q2", "1.2", "1.0", []⟩
      [⟨"U2", "q", []⟩, ⟨"U3", "a", []⟩] ⟨"U2", "q", []⟩
      rfl (by decide) rfl (by decide) (by decide) (by decide)⟩

/-- C7 (counterexample): on a model response containing a binary part the
responder does not upload anything — it posts a plain message whose text
is the newline-join of all parts with the binary part rendered through
Go's `%v` formatting of the blob struct.  (The effect type of the
embedding has no upload action because the source has no upload call.) -/
theorem binary_part_not_uploaded :
    processEvent
      (SubEnv.mk "U1" none (fun _ => .httpResponse 200 (some [1]))
        (some ⟨[some ⟨[.text "hi", .blob "image/png" [1, 2]]⟩]⟩))
      ⟨"app_mention", "C1", "channel", "U2", "<@U1> hello", "1.2", "", []⟩ =
      some [.modelCall, .post "C1" "hi\n\x7bimage/png [1 2]\x7d" (some "1.2")] := by
  decide

/-- C7 (amended): the responder never uploads a file; whatever parts
(text or binary) the model returns, the joined, post-processed text —
with binary parts rendered to text by `%v` inside `joinResponse` — is
delivered as one posted message threaded to the trigger timestamp. -/
theorem binary_parts_rendered_to_posted_text
    (env : SubEnv) (e : ApiInnerEvent) (res : GenResponse) (bl : List GenPart)
    (hty : e.type = "app_mention")
    (hgen : env.genResult = some res)
    (hf : fetchFilesModel env.fetch e.fileUrls = some bl)
    (hp : trimSpace (replaceAllStr e.text ("<@" ++ env.botUser ++ ">") "") ≠ "")
    (hjr : joinResponse res ≠ "") :
    processEvent env e =
      some [.modelCall, .post e.channel (joinResponse res) (some e.timeStamp)] := by
  unfold processEvent
  rw [hty]
  simp only [reduceIte, String.reduceEq]
  unfold generateAnswer
  rw [if_neg hp, hf, hgen]
  simp [hjr]

/-- C7 (witness): the amended behaviour at the concrete response holding
a text part and a binary part. -/
theorem binary_parts_rendered_witness :
    ((SubEnv.mk "U1" none (fun _ => .httpResponse 200 (some [1]))
        (some ⟨[some ⟨[.text "ok", .blob "image/png" [3]]⟩]⟩)).genResult =
      some ⟨[some ⟨[.text "ok", .blob "image/png" [3]]⟩]⟩) ∧
      (trimSpace (replaceAllStr "<@U1> go" ("<@" ++ "U1" ++ ">") "") ≠ "") ∧
      (joinResponse ⟨[some ⟨[.text "ok", .blob "image/png" [3]]⟩]⟩ ≠ "") ∧
      processEvent
        (SubEnv.mk "U1" none (fun _ => .httpResponse 200 (some [1]))
          (some ⟨[some ⟨[.text "ok", .blob "image/png" [3]]⟩]⟩))
        ⟨"app_mention", "C2", "channel", "U2", "<@U1> go", "9.9", "", []⟩ =
        some [.modelCall,
          .post "C2" (joinResponse ⟨[some ⟨[.text "ok", .blob "image/png" [3]]⟩]⟩) (some "9.9")] :=
  ⟨rfl, by decide, by decide,
    binary_parts_rendered_to_posted_text
      (SubEnv.mk "U1" none (fun _ => .httpResponse 200 (some [1]))
        (some ⟨[some ⟨[.text "ok", .blob "image/png" [3]]⟩]⟩))
      ⟨"app_mention", "C2", "channel", "U2", "<@U1> go", "9.9", "", []⟩
      ⟨[some ⟨[.text "ok", .blob "image/png" [3]]⟩]⟩ []
      rfl rfl rfl (by decide) (by decide)⟩

/-- C4 (code bug): in the concurrent fetch, a non-200 status contributes
no blob and is only logged, a successful fetch's bytes become a blob,
and an empty URL list yields an empty result — but a transport-level
error (`err != nil`, so `res == nil`) makes the goroutine evaluate
`res.Status` in its log call and panic, crashing the invocation instead
of merely logging: the first conjunct evaluates the embedding at that
failing input (`none` = crash). -/
theorem fetchFiles_transport_error_crash :
    fetchFilesModel (fun _ => FetchOutcome.transportError) ["http://file1"] = none ∧
      fetchFilesModel (fun _ => FetchOutcome.httpResponse 404 none) ["http://file1"] = some [] ∧
      fetchFilesModel (fun _ => FetchOutcome.httpResponse 200 (some [7, 8])) ["http://file1", ""] =
        some [GenPart.blob (detectContentType [7, 8]) [7, 8]] ∧
      fetchFilesModel (fun _ => FetchOutcome.transportError) [] = some [] :=
  ⟨rfl, rfl, rfl, rfl⟩
